import Mathlib

set_option maxRecDepth 8000

/-!
Verification of the core logic of `polish-language` (src/src-tauri/src/main.rs),
a tray app that polishes or translates selected text through an LLM provider.

The stateful Rust code is shallowly embedded: the settings record and its pure
helpers are translated directly; file I/O is made explicit by passing the
parsed file content to `load_settings_from` and returning the persisted record
from `save_settings`; each global-shortcut handler becomes a function from its
inputs (capture result, settings snapshot, provider-call result) to the list
of side effects it performs.
-/

/-- Model of `std::collections::HashMap<String, String>` as an association
list; only the observable operations used by the source (`get`, `insert`,
`remove`, `contains_key`) are provided, with the map's keys kept unique by
construction. -/
def StrMap := List (String × String)

/-- `HashMap::get(key).cloned()`: first binding for `key`, if any. -/
def mapGet? : List (String × String) → String → Option String
  | [], _ => none
  | (k, v) :: rest, key => if k = key then some v else mapGet? rest key

/-- `HashMap::insert(key, v)`: upsert, keeping keys unique. -/
def mapInsert (m : List (String × String)) (key v : String) : List (String × String) :=
  (key, v) :: m.filter (fun e => e.1 ≠ key)

/-- `HashMap::remove(key)`: drop the binding for `key`. -/
def mapRemove (m : List (String × String)) (key : String) : List (String × String) :=
  m.filter (fun e => e.1 ≠ key)

/-- `HashMap::contains_key(key)`. -/
def mapContains (m : List (String × String)) (key : String) : Bool :=
  (mapGet? m key).isSome

/-- The persisted `Settings` struct of main.rs (field for field). -/
structure Settings where
  shortcut : String
  translate_shortcut : String
  api_keys : List (String × String)
  api_key : Option String
  model : String
  base_url : String
  prompt : String
  provider : String
  sound_enabled : Bool
  notifications_enabled : Bool
deriving Repr, DecidableEq

/-- `Settings::default()` from main.rs. -/
def Settings.default : Settings where
  shortcut := "CmdOrCtrl+Alt+P"
  translate_shortcut := "CmdOrCtrl+Alt+T"
  api_keys := []
  api_key := none
  model := "gpt-3.5-turbo"
  base_url := "https://api.openai.com/v1"
  prompt := "Please polish and improve the following text while maintaining its original meaning and tone:"
  provider := "openai"
  sound_enabled := true
  notifications_enabled := false

/-- `Settings::get_current_api_key` (main.rs lines 66-71):
`self.api_keys.get(&self.provider).cloned().unwrap_or_default()`. -/
def Settings.get_current_api_key (s : Settings) : String :=
  (mapGet? s.api_keys s.provider).getD ""

/-- `Settings::set_api_key` (main.rs lines 73-80): empty key removes the
entry, non-empty key upserts it. -/
def Settings.set_api_key (s : Settings) (provider api_key : String) : Settings :=
  if api_key.isEmpty then
    { s with api_keys := mapRemove s.api_keys provider }
  else
    { s with api_keys := mapInsert s.api_keys provider api_key }

/-- `Settings::migrate_legacy_api_key` (main.rs lines 83-91): if the legacy
`api_key` field is present, copy it into `api_keys` when it is non-empty and
no entry exists for the current provider, then clear the legacy field. -/
def Settings.migrate_legacy_api_key (s : Settings) : Settings :=
  match s.api_key with
  | some legacy_key =>
      let keys :=
        if !legacy_key.isEmpty && !(mapContains s.api_keys s.provider) then
          mapInsert s.api_keys s.provider legacy_key
        else
          s.api_keys
      { s with api_keys := keys, api_key := none }
  | none => s

/-- `load_settings` (main.rs lines 224-234), with the file read made explicit:
`none` is an unreadable file (defaults, no migration pass), `some none` a
readable but unparsable file (`unwrap_or_default`, then migration), and
`some (some s)` a parsed record (migration applied). -/
def load_settings_from (file : Option (Option Settings)) : Settings :=
  match file with
  | none => Settings.default
  | some parsed => (parsed.getD Settings.default).migrate_legacy_api_key

/-- `save_settings` (main.rs lines 193-204), modelled as the record that is
serialized and written: the legacy field is forced to `None` first. -/
def save_settings (s : Settings) : Settings :=
  { s with api_key := none }

-- Basic lemmas about the map model.

theorem mapGet_mapInsert_self (m : List (String × String)) (k v : String) :
    mapGet? (mapInsert m k v) k = some v := by
  simp [mapInsert, mapGet?]

theorem mapGet_mapRemove_self (m : List (String × String)) (k : String) :
    mapGet? (mapRemove m k) k = none := by
  induction m with
  | nil => simp [mapRemove, mapGet?]
  | cons e rest ih =>
      by_cases h : e.1 = k
      · simpa [mapRemove, List.filter, h] using ih
      · simpa [mapRemove, List.filter, h, mapGet?] using ih

/-- Claim C9: the legacy-credential migration is idempotent: migrating a
settings record twice gives the same record as migrating it once. -/
theorem migrate_legacy_api_key_idempotent (s : Settings) :
    s.migrate_legacy_api_key.migrate_legacy_api_key = s.migrate_legacy_api_key := by
  cases h : s.api_key with
  | none => simp [Settings.migrate_legacy_api_key, h]
  | some legacy_key => simp [Settings.migrate_legacy_api_key, h]

/-- Claim C1: if the legacy `api_key` field holds a non-empty key and
`api_keys` has no entry for the current provider, then `load()` followed by
`save()` persists a record whose `api_keys` maps the provider to the legacy
key and whose legacy field is absent. -/
theorem load_save_migrates_legacy_key (s : Settings) (k : String)
    (hk : s.api_key = some k) (hne : ¬ k.isEmpty)
    (hmiss : mapGet? s.api_keys s.provider = none) :
    mapGet? (save_settings (load_settings_from (some (some s)))).api_keys
        (save_settings (load_settings_from (some (some s)))).provider = some k ∧
    (save_settings (load_settings_from (some (some s)))).api_key = none := by
  simp [load_settings_from, save_settings, Settings.migrate_legacy_api_key, hk,
    mapContains, hmiss, hne, mapGet_mapInsert_self]

/-- Witness for C1 at a concrete record: a default record carrying a legacy
key and no per-provider entry. -/
theorem load_save_migrates_legacy_key_witness :
    mapGet? (save_settings (load_settings_from (some (some
        { Settings.default with api_key := some "sk-legacy" })))).api_keys
      (save_settings (load_settings_from (some (some
        { Settings.default with api_key := some "sk-legacy" })))).provider = some "sk-legacy" ∧
    (save_settings (load_settings_from (some (some
        { Settings.default with api_key := some "sk-legacy" })))).api_key = none :=
  load_save_migrates_legacy_key
    { Settings.default with api_key := some "sk-legacy" } "sk-legacy"
    rfl (by decide) rfl

/-- Claim C8: setting an empty key removes the provider's entry; setting a
non-empty key and then resolving with that provider active returns it; and
resolving always yields the stored key or the empty string (it is total). -/
theorem api_key_set_get_behavior :
    (∀ (s : Settings) (p : String),
      mapGet? (s.set_api_key p "").api_keys p = none) ∧
    (∀ (s : Settings) (p : String), s.provider = p →
      (s.set_api_key p "x").get_current_api_key = "x") ∧
    (∀ s : Settings,
      (mapGet? s.api_keys s.provider = none ∧ s.get_current_api_key = "") ∨
      mapGet? s.api_keys s.provider = some s.get_current_api_key) := by
  refine ⟨?_, ?_, ?_⟩
  · intro s p
    have h0 : ("" : String).isEmpty = true := rfl
    simp [Settings.set_api_key, h0, mapGet_mapRemove_self]
  · intro s p hp
    have h1 : ("x" : String).isEmpty = false := rfl
    simp [Settings.set_api_key, Settings.get_current_api_key, hp, h1,
      mapGet_mapInsert_self]
  · intro s
    cases h : mapGet? s.api_keys s.provider with
    | none => exact Or.inl ⟨rfl, by simp [Settings.get_current_api_key, h]⟩
    | some v => exact Or.inr (by simp [Settings.get_current_api_key, h])

/-- Witness for C8 at a concrete record with the provider active. -/
theorem api_key_set_get_behavior_witness :
    (Settings.default.set_api_key "openai" "x").get_current_api_key = "x" :=
  api_key_set_get_behavior.2.1 Settings.default "openai" rfl

-- Provider response shapes (main.rs lines 94-151).

/-- `OpenAIMessage`. -/
structure OpenAIMessage where
  role : String
  content : String
deriving Repr, DecidableEq

/-- `OpenAIChoice`. -/
structure OpenAIChoice where
  message : OpenAIMessage
deriving Repr, DecidableEq

/-- `OpenAIResponse`. -/
structure OpenAIResponse where
  choices : List OpenAIChoice
deriving Repr, DecidableEq

/-- `GeminiPart`. -/
structure GeminiPart where
  text : String
deriving Repr, DecidableEq

/-- `GeminiContent`. -/
structure GeminiContent where
  parts : List GeminiPart
deriving Repr, DecidableEq

/-- `GeminiCandidate`. -/
structure GeminiCandidate where
  content : GeminiContent
deriving Repr, DecidableEq

/-- `GeminiResponse`. -/
structure GeminiResponse where
  candidates : List GeminiCandidate
deriving Repr, DecidableEq

/-- Model of Rust `str::trim`: drop whitespace characters from both ends. -/
def trimChars (cs : List Char) : List Char :=
  ((cs.dropWhile Char.isWhitespace).reverse.dropWhile Char.isWhitespace).reverse

/-- Model of Rust `str::trim` on strings. -/
def strTrim (s : String) : String :=
  String.mk (trimChars s.data)

/-- Success-path extraction shared by `polish_text_with_openai` (main.rs lines
301-305) and `translate_text_with_openai` (lines 413-417):
`choices.first().map(|c| c.message.content.trim()).ok_or("No response from API")`. -/
def openai_extract_content (resp : OpenAIResponse) : Except String String :=
  match resp.choices.head? with
  | some choice => Except.ok (strTrim choice.message.content)
  | none => Except.error "No response from API"

/-- Success-path extraction shared by `polish_text_with_gemini` (main.rs lines
359-364) and `translate_text_with_gemini` (lines 472-477):
`candidates.first().and_then(|c| c.content.parts.first()).map(|p| p.text.trim())`. -/
def gemini_extract_content (resp : GeminiResponse) : Except String String :=
  match resp.candidates.head?.bind (fun c => c.content.parts.head?) with
  | some part => Except.ok (strTrim part.text)
  | none => Except.error "No response from API"

/-- Claim C4: the OpenAI-style adapter returns the first choice's message
content trimmed (content "  Hello.  " yields "Hello."); with an empty choices
array it fails with the empty-response error. -/
theorem openai_transform_behavior :
    (∀ (resp : OpenAIResponse) (c : OpenAIChoice) (rest : List OpenAIChoice),
      resp.choices = c :: rest →
      openai_extract_content resp = Except.ok (strTrim c.message.content)) ∧
    openai_extract_content ⟨[⟨⟨"assistant", "  Hello.  "⟩⟩]⟩ = Except.ok "Hello." ∧
    (∀ resp : OpenAIResponse, resp.choices = [] →
      openai_extract_content resp = Except.error "No response from API") := by
  refine ⟨?_, rfl, ?_⟩
  · intro resp c rest h
    simp [openai_extract_content, h]
  · intro resp h
    simp [openai_extract_content, h]

/-- Witness for C4 at a concrete one-choice response. -/
theorem openai_transform_behavior_witness :
    openai_extract_content ⟨[⟨⟨"assistant", " hi "⟩⟩]⟩ =
      Except.ok (strTrim " hi ") :=
  openai_transform_behavior.1 ⟨[⟨⟨"assistant", " hi "⟩⟩]⟩ ⟨⟨"assistant", " hi "⟩⟩ [] rfl

/-- Claim C5: the Gemini-style adapter returns the first candidate's first
part's text trimmed ("Bonjour" yields "Bonjour"); with zero candidates it
fails with the empty-response error. -/
theorem gemini_transform_behavior :
    (∀ (resp : GeminiResponse) (cand : GeminiCandidate) (rest : List GeminiCandidate)
      (part : GeminiPart) (prest : List GeminiPart),
      resp.candidates = cand :: rest → cand.content.parts = part :: prest →
      gemini_extract_content resp = Except.ok (strTrim part.text)) ∧
    gemini_extract_content ⟨[⟨⟨[⟨"Bonjour"⟩]⟩⟩]⟩ = Except.ok "Bonjour" ∧
    (∀ resp : GeminiResponse, resp.candidates = [] →
      gemini_extract_content resp = Except.error "No response from API") := by
  refine ⟨?_, rfl, ?_⟩
  · intro resp cand rest part prest hc hp
    simp [gemini_extract_content, hc, hp]
  · intro resp h
    simp [gemini_extract_content, h]

/-- Witness for C5 at a concrete one-candidate response. -/
theorem gemini_transform_behavior_witness :
    gemini_extract_content ⟨[⟨⟨[⟨" salut "⟩]⟩⟩]⟩ = Except.ok (strTrim " salut ") :=
  gemini_transform_behavior.1 ⟨[⟨⟨[⟨" salut "⟩]⟩⟩]⟩ ⟨⟨[⟨" salut "⟩]⟩⟩ [] ⟨" salut "⟩ [] rfl rfl

-- Substring search, modelling Rust `str::contains` on a literal pattern.

/-- Whether `p` is a prefix of `s` (character lists). -/
def isPrefixL : List Char → List Char → Bool
  | [], _ => true
  | _ :: _, [] => false
  | a :: as, b :: bs => a == b && isPrefixL as bs

/-- Whether `pat` occurs as a contiguous substring of `s` (character lists);
models `str::contains`. -/
def containsSub : List Char → List Char → Bool
  | [], pat => pat.isEmpty
  | c :: rest, pat => isPrefixL pat (c :: rest) || containsSub rest pat

/-- `base_url.contains("generateContent")` as used by the Gemini adapters. -/
def strContains (s pat : String) : Bool :=
  containsSub s.data pat.data

theorem isPrefixL_iff_ex (p : List Char) :
    ∀ s : List Char, isPrefixL p s = true ↔ ∃ t, s = p ++ t := by
  induction p with
  | nil => intro s; simp [isPrefixL]
  | cons a as ih =>
      intro s
      cases s with
      | nil => simp [isPrefixL]
      | cons b bs =>
          simp only [isPrefixL, Bool.and_eq_true, beq_iff_eq, ih bs]
          constructor
          · rintro ⟨rfl, t, rfl⟩
            exact ⟨t, rfl⟩
          · rintro ⟨t, h⟩
            injection h with h1 h2
            exact ⟨h1.symm, t, h2⟩

theorem containsSub_iff_ex (s pat : List Char) :
    containsSub s pat = true ↔ ∃ pre post, s = pre ++ pat ++ post := by
  induction s with
  | nil =>
      simp only [containsSub, List.isEmpty_iff]
      constructor
      · rintro rfl
        exact ⟨[], [], rfl⟩
      · rintro ⟨pre, post, h⟩
        rcases (List.append_eq_nil.mp h.symm) with ⟨h1, h2⟩
        exact (List.append_eq_nil.mp h1).2
  | cons c rest ih =>
      simp only [containsSub, Bool.or_eq_true, isPrefixL_iff_ex, ih]
      constructor
      · rintro (⟨t, h⟩ | ⟨pre, post, h⟩)
        · exact ⟨[], t, by simpa using h⟩
        · exact ⟨c :: pre, post, by simp [h]⟩
      · rintro ⟨pre, post, h⟩
        cases pre with
        | nil => exact Or.inl ⟨post, by simpa using h⟩
        | cons d ds =>
            injection h with h1 h2
            exact Or.inr ⟨ds, post, h2⟩

/-- The request URL built by `polish_text_with_gemini` (main.rs lines 327-335)
and `translate_text_with_gemini` (lines 440-448). -/
def gemini_request_url (base_url model api_key : String) : String :=
  if strContains base_url "generateContent" then
    base_url ++ "?key=" ++ api_key
  else
    base_url ++ "/v1beta/models/" ++ model ++ ":generateContent?key=" ++ api_key

/-- Claim C7: if `base_url` contains the literal substring "generateContent"
(as a genuine substring decomposition), the Gemini URL is the base with
"?key=..." appended verbatim; otherwise it is
"base/v1beta/models/model:generateContent?key=...". -/
theorem gemini_url_construction (b m k : String) :
    ((∃ pre post, b.data = pre ++ ("generateContent" : String).data ++ post) →
      gemini_request_url b m k = b ++ "?key=" ++ k) ∧
    ((¬ ∃ pre post, b.data = pre ++ ("generateContent" : String).data ++ post) →
      gemini_request_url b m k =
        b ++ "/v1beta/models/" ++ m ++ ":generateContent?key=" ++ k) := by
  constructor
  · intro hex
    have hc : strContains b "generateContent" = true :=
      (containsSub_iff_ex _ _).mpr hex
    simp [gemini_request_url, hc]
  · intro hex
    have hc : strContains b "generateContent" ≠ true :=
      fun h => hex ((containsSub_iff_ex _ _).mp h)
    simp [gemini_request_url, hc]

/-- Witness for C7: one base URL that already names the generation endpoint,
one that does not. -/
theorem gemini_url_construction_witness :
    gemini_request_url "https://g/m:generateContent" "m" "k" =
      "https://g/m:generateContent" ++ "?key=" ++ "k" ∧
    gemini_request_url "https://api.example.com" "gemini-pro" "k" =
      "https://api.example.com" ++ "/v1beta/models/" ++ "gemini-pro" ++
        ":generateContent?key=" ++ "k" := by
  constructor
  · exact (gemini_url_construction "https://g/m:generateContent" "m" "k").1
      ⟨("https://g/m:" : String).data, [], by decide⟩
  · exact (gemini_url_construction "https://api.example.com" "gemini-pro" "k").2
      (fun hex => absurd ((containsSub_iff_ex _ _).mpr hex) (by decide))

-- Byte-level model of the notification preview (main.rs lines 580-584 and
-- 654-658): `if text.len() > 100 then format "..." with &text[..97] else text`.

/-- UTF-8 byte count of a character list; `byteSum s.data` models Rust
`String::len()`, which counts bytes, not characters. -/
def byteSum (cs : List Char) : Nat :=
  (cs.map Char.utf8Size).sum

/-- Rust `String::len()` (UTF-8 byte length). -/
def byteLen (s : String) : Nat :=
  byteSum s.data

/-- Model of the byte-range slice `&s[..n]`: the prefix of exactly `n` bytes
when byte index `n` is a character boundary, `none` (a Rust slice panic)
otherwise. -/
def takeBytes (cs : List Char) (n : Nat) : Option (List Char) :=
  if n = 0 then some []
  else
    match cs with
    | [] => none
    | c :: rest =>
        if c.utf8Size ≤ n then (takeBytes rest (n - c.utf8Size)).map (fun t => c :: t)
        else none

/-- The notification-body preview computed by both shortcut handlers:
`if text.len() > 100 then first 97 bytes + ellipsis else text`; `none` models
the panic when byte 97 is not a character boundary. -/
def previewOf (s : String) : Option String :=
  if byteLen s > 100 then
    (takeBytes s.data 97).map (fun t => String.mk t ++ "...")
  else some s

theorem byteSum_cons (c : Char) (cs : List Char) :
    byteSum (c :: cs) = c.utf8Size + byteSum cs := by
  simp [byteSum]

theorem takeBytes_zero (cs : List Char) : takeBytes cs 0 = some [] := by
  cases cs <;> simp [takeBytes]

/-- Slicing a string at the byte length of a known prefix succeeds and
returns that prefix. -/
theorem takeBytes_append (pre rest : List Char) :
    takeBytes (pre ++ rest) (byteSum pre) = some pre := by
  induction pre with
  | nil => simp [takeBytes_zero, byteSum]
  | cons c pre ih =>
      have hpos : 0 < c.utf8Size := Char.utf8Size_pos c
      have hne : ¬ (c.utf8Size + byteSum pre = 0) := by omega
      have hle : c.utf8Size ≤ c.utf8Size + byteSum pre := Nat.le_add_right _ _
      rw [List.cons_append, byteSum_cons]
      rw [takeBytes]
      simp [hne, hle, Nat.add_sub_cancel_left, ih]

/-- A successful byte slice is a prefix whose byte count is exactly the
requested index. -/
theorem takeBytes_eq_some :
    ∀ (cs : List Char) (n : Nat) (t : List Char),
      takeBytes cs n = some t → byteSum t = n ∧ ∃ rest, cs = t ++ rest := by
  intro cs
  induction cs with
  | nil =>
      intro n t h
      by_cases hn : n = 0
      · subst hn
        simp [takeBytes] at h
        subst h
        exact ⟨rfl, [], rfl⟩
      · simp [takeBytes, hn] at h
  | cons c rest ih =>
      intro n t h
      by_cases hn : n = 0
      · subst hn
        simp [takeBytes] at h
        subst h
        exact ⟨rfl, c :: rest, rfl⟩
      · rw [takeBytes] at h
        simp only [if_neg hn] at h
        by_cases hle : c.utf8Size ≤ n
        · simp only [if_pos hle, Option.map_eq_some'] at h
          obtain ⟨t', ht', rfl⟩ := h
          obtain ⟨hb, r, hr⟩ := ih _ _ ht'
          refine ⟨?_, r, by simp [hr]⟩
          rw [byteSum_cons, hb]
          omega
        · simp [if_neg hle] at h

theorem isSome_map {α β : Type} (o : Option α) (f : α → β) :
    (o.map f).isSome = o.isSome := by
  cases o <;> rfl

/-- Claim C6, counterexample: a 60-character result made of two-byte
characters is 120 bytes long, so the handler truncates (against the claim's
"100 characters or fewer is shown unmodified") and the byte slice at index 97
falls inside a character, so no body is produced at all. -/
theorem preview_char_truncation_counterexample :
    (String.mk (List.replicate 60 'é')).length ≤ 100 ∧
    previewOf (String.mk (List.replicate 60 'é')) ≠
      some (String.mk (List.replicate 60 'é')) := by
  constructor
  · decide
  · decide

/-- Claim C6 as amended: the truncation threshold and cut are measured in
bytes, not characters: a result of at most 100 bytes is shown unmodified, and
a longer result whose byte index 97 is a character boundary is cut to its
97-byte prefix followed by "...". -/
theorem preview_byte_truncation (s : String) :
    (byteLen s ≤ 100 → previewOf s = some s) ∧
    (100 < byteLen s → ∀ pre rest, s.data = pre ++ rest → byteSum pre = 97 →
      previewOf s = some (String.mk pre ++ "...")) := by
  constructor
  · intro h
    simp [previewOf, Nat.not_lt.mpr h]
  · intro h pre rest hdecomp h97
    have hTB : takeBytes s.data 97 = some pre := by
      rw [hdecomp, ← h97]
      exact takeBytes_append pre rest
    simp [previewOf, h, hTB]

/-- Witness for the amended C6: a 50-byte ASCII result is unmodified; a
120-byte ASCII result is cut at byte 97. -/
theorem preview_byte_truncation_witness :
    previewOf (String.mk (List.replicate 50 'a')) = some (String.mk (List.replicate 50 'a')) ∧
    previewOf (String.mk (List.replicate 120 'a')) =
      some (String.mk (List.replicate 97 'a') ++ "...") := by
  constructor
  · exact (preview_byte_truncation (String.mk (List.replicate 50 'a'))).1 (by decide)
  · exact (preview_byte_truncation (String.mk (List.replicate 120 'a'))).2 (by decide)
      (List.replicate 97 'a') (List.replicate 23 'a') (by decide) (by decide)

/-- Claim C10: the preview truncation is byte-indexed: there is a result
longer than 100 bytes (61 two-byte characters) on which building the preview
panics, and for every result longer than 100 bytes the preview is produced
exactly when byte index 97 lies on a character boundary. -/
theorem preview_slice_is_byte_indexed :
    (100 < byteLen (String.mk (List.replicate 61 'é')) ∧
      previewOf (String.mk (List.replicate 61 'é')) = none) ∧
    (∀ s : String, 100 < byteLen s →
      ((previewOf s).isSome = true ↔
        ∃ pre rest, s.data = pre ++ rest ∧ byteSum pre = 97)) := by
  constructor
  · exact ⟨by decide, by decide⟩
  · intro s h
    have hif : previewOf s = (takeBytes s.data 97).map (fun t => String.mk t ++ "...") := by
      simp [previewOf, h]
    rw [hif, isSome_map]
    constructor
    · intro hsome
      obtain ⟨t, ht⟩ := Option.isSome_iff_exists.mp hsome
      obtain ⟨hb, r, hr⟩ := takeBytes_eq_some _ _ _ ht
      exact ⟨t, r, hr, hb⟩
    · rintro ⟨pre, rest, hdecomp, h97⟩
      rw [hdecomp, ← h97, takeBytes_append]
      rfl

/-- Witness for C10's boundary characterization at a 120-byte ASCII result. -/
theorem preview_slice_is_byte_indexed_witness :
    (previewOf (String.mk (List.replicate 120 'a'))).isSome = true ↔
      ∃ pre rest, (String.mk (List.replicate 120 'a')).data = pre ++ rest ∧
        byteSum pre = 97 :=
  preview_slice_is_byte_indexed.2 (String.mk (List.replicate 120 'a')) (by decide)

-- The two global-shortcut handlers (main.rs lines 540-607 and 614-681),
-- embedded as functions from the capture result, the loaded settings
-- snapshot and the provider-call result to the ordered list of side effects
-- the run performs. The Bool is true when the run dies in the byte-slice
-- panic of the preview (before resetting the busy indicator).

/-- An observable side effect of one pipeline run. -/
inductive Effect where
  | networkCall
  | clipboardWrite (text : String)
  | notification (title body : String)
  | sound
  | busyIndicator (processing : Bool)
  | errorLog (msg : String)
deriving Repr, DecidableEq

/-- `show_notification` (main.rs lines 171-178): emits only when
`notifications_enabled` is set. -/
def show_notification_fx (title body : String) (s : Settings) : List Effect :=
  if s.notifications_enabled then [Effect.notification title body] else []

/-- The polish shortcut handler body (main.rs lines 542-606). -/
def polish_shortcut_handler (capture : Except String String) (settings : Settings)
    (llmResult : Except String String) : List Effect × Bool :=
  match capture with
  | Except.error e => ([Effect.errorLog ("Error getting selected text: " ++ e)], false)
  | Except.ok selected_text =>
      if (strTrim selected_text).isEmpty then ([], false)
      else if settings.get_current_api_key.isEmpty then
        ([Effect.errorLog ("API key not configured for provider: " ++ settings.provider)],
          false)
      else
        let started := [Effect.busyIndicator true, Effect.networkCall]
        match llmResult with
        | Except.ok polished_text =>
            let copied := started ++ [Effect.clipboardWrite polished_text]
              ++ (if settings.sound_enabled then [Effect.sound] else [])
            match previewOf polished_text with
            | none => (copied, true)
            | some preview =>
                (copied ++
                  show_notification_fx "Text Polished"
                    ("Polished text copied to clipboard:\n" ++ preview) settings ++
                  [Effect.busyIndicator false], false)
        | Except.error e =>
            (started ++ [Effect.errorLog ("Failed to polish text: " ++ e)] ++
              show_notification_fx "Polish Failed" ("Failed to polish text: " ++ e)
                settings ++
              [Effect.busyIndicator false], false)

/-- The translate shortcut handler body (main.rs lines 616-680). -/
def translate_shortcut_handler (capture : Except String String) (settings : Settings)
    (llmResult : Except String String) : List Effect × Bool :=
  match capture with
  | Except.error e => ([Effect.errorLog ("Error getting selected text: " ++ e)], false)
  | Except.ok selected_text =>
      if (strTrim selected_text).isEmpty then ([], false)
      else if settings.get_current_api_key.isEmpty then
        ([Effect.errorLog ("API key not configured for provider: " ++ settings.provider)],
          false)
      else
        let started := [Effect.busyIndicator true, Effect.networkCall]
        match llmResult with
        | Except.ok translated_text =>
            let copied := started ++ [Effect.clipboardWrite translated_text]
              ++ (if settings.sound_enabled then [Effect.sound] else [])
            match previewOf translated_text with
            | none => (copied, true)
            | some preview =>
                (copied ++
                  show_notification_fx "Text Translated"
                    ("Translated text copied to clipboard:\n" ++ preview) settings ++
                  [Effect.busyIndicator false], false)
        | Except.error e =>
            (started ++ [Effect.errorLog ("Failed to translate text: " ++ e)] ++
              show_notification_fx "Translation Failed"
                ("Failed to translate text: " ++ e) settings ++
              [Effect.busyIndicator false], false)

/-- Claim C3: captured text that is empty or all whitespace makes both
handlers return with no side effects at all and no error: a silent no-op. -/
theorem whitespace_capture_is_silent_noop (text : String) (settings : Settings)
    (r : Except String String) (h : (strTrim text).isEmpty = true) :
    polish_shortcut_handler (Except.ok text) settings r = ([], false) ∧
    translate_shortcut_handler (Except.ok text) settings r = ([], false) := by
  constructor
  · simp [polish_shortcut_handler, h]
  · simp [translate_shortcut_handler, h]

/-- Witness for C3 on whitespace-only captured text. -/
theorem whitespace_capture_is_silent_noop_witness :
    polish_shortcut_handler (Except.ok "  \n ") Settings.default (Except.ok "y") =
      ([], false) ∧
    translate_shortcut_handler (Except.ok "  \n ") Settings.default (Except.ok "y") =
      ([], false) :=
  whitespace_capture_is_silent_noop "  \n " Settings.default (Except.ok "y") (by decide)

/-- Claim C2: with non-blank captured text and an empty resolved API key,
both handlers stop after logging the missing-credential error: the only
effect is the error report, and in particular no network call happens. -/
theorem missing_api_key_aborts (text : String) (settings : Settings)
    (r : Except String String) (hws : (strTrim text).isEmpty = false)
    (hkey : settings.get_current_api_key = "") :
    (polish_shortcut_handler (Except.ok text) settings r =
        ([Effect.errorLog ("API key not configured for provider: " ++ settings.provider)],
          false) ∧
      Effect.networkCall ∉ (polish_shortcut_handler (Except.ok text) settings r).1) ∧
    (translate_shortcut_handler (Except.ok text) settings r =
        ([Effect.errorLog ("API key not configured for provider: " ++ settings.provider)],
          false) ∧
      Effect.networkCall ∉ (translate_shortcut_handler (Except.ok text) settings r).1) := by
  have hk : settings.get_current_api_key.isEmpty = true := by
    rw [hkey]; rfl
  constructor
  · constructor
    · simp [polish_shortcut_handler, hws, hk]
    · simp [polish_shortcut_handler, hws, hk]
  · constructor
    · simp [translate_shortcut_handler, hws, hk]
    · simp [translate_shortcut_handler, hws, hk]

/-- Witness for C2: default settings carry no key for the active provider. -/
theorem missing_api_key_aborts_witness :
    polish_shortcut_handler (Except.ok "hello") Settings.default (Except.ok "y") =
      ([Effect.errorLog
          ("API key not configured for provider: " ++ Settings.default.provider)],
        false) ∧
    translate_shortcut_handler (Except.ok "hello") Settings.default (Except.ok "y") =
      ([Effect.errorLog
          ("API key not configured for provider: " ++ Settings.default.provider)],
        false) :=
  ⟨(missing_api_key_aborts "hello" Settings.default (Except.ok "y") (by decide) rfl).1.1,
   (missing_api_key_aborts "hello" Settings.default (Except.ok "y") (by decide) rfl).2.1⟩
